import Mathlib

/-!
Verification development for the `kvs` log-structured key-value store.

The Rust sources are embedded shallowly:

* `src/lib.rs` (`KvStore`): the store state is a record holding the in-memory
  `index` (the `HashMap<String, usize>` modelled as a function
  `String → Option Nat`), the write `cache` (`Vec<Command>`), the
  `cached_commands` counter with its two thresholds (`i32` modelled as `Int`;
  `KvStore::open` sets `cache_threshold = 1` and `log_threshold = 500`), and
  the contents of the single log file `log.log`.  The file is modelled as the
  list of parsed commands, one per line, in line order: serde_json
  serialization round-trips every `Command`, so the JSON text of a line is
  identified with the command it encodes.  Filesystem errors are not
  modelled; a missing file reads as the empty list (`open_reader` passes
  `create(true)`).
* `src/bin/kvs-server.rs`: the request parser and the response computed by
  `handle_connection`, with Rust panics (integer underflow in
  `remove_newline_from_end`, out-of-bounds `v[1]`/`v[2]` indexing in
  `parse_request`) made explicit as a `panic` outcome, and the startup path
  of `main`.
* `src/thread_pool.rs` (`SharedQueueThreadPool`): the shared
  `VecDeque<ThreadPoolMessage>` with `spawn` pushing at the front and workers
  popping at the front; jobs are identified by `Nat` ids since closures carry
  no observable data here.
-/

/-- Mirror of Rust `Result<T, failure::Error>` as used by the crate's
`kvs::Result`; errors are identified by their `err_msg` string. -/
inductive KvResult (α : Type) where
  | ok : α → KvResult α
  | err : String → KvResult α
deriving DecidableEq

/-- `Pair` from src/lib.rs: a key/value pair, the unit stored. -/
structure Pair where
  k : String
  v : String
deriving DecidableEq

/-- `Command` from src/lib.rs: the log record written as one JSON line. -/
inductive Command where
  | Set : Pair → Command
  | Remove : String → Command
deriving DecidableEq

/-- The state of a `KvStore` (src/lib.rs lines 37-44) together with the
contents of its log file.  `index` models the `HashMap<String, usize>`
pointwise; `file` is the list of commands currently serialized in
`log.log`, one per line, in line order. -/
structure KvState where
  index : String → Option Nat
  cache : List Command
  cached_commands : Int
  cache_threshold : Int
  log_threshold : Int
  file : List Command

/-- `vec.iter().position(pred)` as used in
`KvStore::add_or_replace_command_in_vec`. -/
def vec_position (pred : Command → Bool) : List Command → Option Nat
  | [] => none
  | c :: rest =>
    if pred c then some 0 else (vec_position pred rest).map (fun i => i + 1)

/-- The predicate closure passed to `position` in
`add_or_replace_command_in_vec`: true on a `Set` whose key equals `k`. -/
def set_has_key (k : String) (c : Command) : Bool :=
  match c with
  | Command.Set pair_inner => k == pair_inner.k
  | Command.Remove _ => false

/-- `KvStore::add_or_replace_command_in_vec` (src/lib.rs lines 139-162):
a `Set` removes the first earlier `Set` with the same key (if any) and is
pushed at the end; a `Remove` is pushed at the end unconditionally. -/
def add_or_replace_command_in_vec (vec : List Command) (command : Command) : List Command :=
  match command with
  | Command.Set pair =>
    match vec_position (set_has_key pair.k) vec with
    | some index => vec.eraseIdx index ++ [Command.Set ⟨pair.k, pair.v⟩]
    | none => vec ++ [Command.Set ⟨pair.k, pair.v⟩]
  | Command.Remove key => vec ++ [Command.Remove key]

/-- `KvStore::compact_log` (src/lib.rs lines 114-137): fold every line of the
log through `add_or_replace_command_in_vec` and overwrite the file with the
result.  The in-memory index is not touched by this function. -/
def compact_log (s : KvState) : KvState :=
  { s with file := s.file.foldl add_or_replace_command_in_vec [] }

/-- The `for (offset, line) in br.lines().enumerate()` loop of
`KvStore::generate_index` (src/lib.rs lines 88-105), starting at line number
`offset` with the current `index` and `should_compact` flag: a `Set` maps its
key to the current offset, a `Remove` deletes its key, and the flag is raised
whenever an offset exceeds `log_threshold` (the Rust
`offset > self.log_threshold as usize`). -/
def generate_index_loop (log_threshold : Nat) (offset : Nat)
    (index : String → Option Nat) (should_compact : Bool) :
    List Command → (String → Option Nat) × Bool
  | [] => (index, should_compact)
  | command :: rest =>
    let index' :=
      match command with
      | Command.Set pair => fun k' => if k' = pair.k then some offset else index k'
      | Command.Remove key => fun k' => if k' = key then none else index k'
    generate_index_loop log_threshold (offset + 1) index'
      (should_compact || decide (offset > log_threshold)) rest

/-- `KvStore::generate_index` (src/lib.rs lines 83-112): replay the whole file
over the existing index (the Rust code never clears `self.index` first), then
run `compact_log` if some offset exceeded the threshold.  Note that after
`compact_log` rewrites the file the function returns without rebuilding the
index. -/
def generate_index (s : KvState) : KvState :=
  let r := generate_index_loop s.log_threshold.toNat 0 s.index false s.file
  let s' := { s with index := r.1 }
  if r.2 then compact_log s' else s'

/-- `KvStore::write_cached_to_log` (src/lib.rs lines 187-210): append the last
`cached_commands` entries of the cache to the file, reset the counter, clear
the cache and regenerate the index. -/
def write_cached_to_log (s : KvState) : KvState :=
  if s.cached_commands ≤ 0 then s
  else
    let cached_start : Int := (s.cache.length : Int) - s.cached_commands
    let s' := { s with
      file := s.file ++ s.cache.drop cached_start.toNat,
      cached_commands := 0,
      cache := [] }
    generate_index s'

/-- `KvStore::raise_cached_commands` (src/lib.rs lines 177-185). -/
def raise_cached_commands (s : KvState) (amount : Int) : KvState :=
  let s' := { s with cached_commands := s.cached_commands + amount }
  if s'.cached_commands ≥ s'.cache_threshold then write_cached_to_log s' else s'

/-- `KvStore::set` (src/lib.rs lines 166-175): push a `Set` command on the
cache and raise the counter (which, with `cache_threshold = 1`, flushes
immediately).  I/O cannot fail in the model, so no error case remains. -/
def kvSet (s : KvState) (k v : String) : KvState :=
  raise_cached_commands { s with cache := s.cache ++ [Command.Set ⟨k, v⟩] } 1

/-- `KvStore::get` (src/lib.rs lines 214-236): look the key up in the index;
on a hit read the line at the stored offset and return its value.  `get`
takes `&mut self`, so the (unchanged) store is returned alongside the
result. -/
def kvGet (s : KvState) (k : String) : KvResult (Option String) × KvState :=
  match s.index k with
  | some offset =>
    match s.file.get? offset with
    | none => (.err "File pointer in index points to non-existant command", s)
    | some (Command.Set pair) => (.ok (some pair.v), s)
    | some (Command.Remove _) => (.err "File pointer in index points to remove command", s)
  | none => (.ok none, s)

/-- `KvStore::remove` (src/lib.rs lines 239-257): call `get`; when it returns
a value, push a `Remove` command and raise the counter; when it returns
`None`, fail with "Key not found"; a `get` error propagates through `?`. -/
def kvRemove (s : KvState) (k : String) : KvResult Unit × KvState :=
  match kvGet s k with
  | (.ok (some _), s') =>
    (.ok (), raise_cached_commands { s' with cache := s'.cache ++ [Command.Remove k] } 1)
  | (.ok none, s') => (.err "Key not found", s')
  | (.err e, s') => (.err e, s')

/-- `KvStore::open` (src/lib.rs lines 63-79) applied to a directory whose
`log.log` currently parses to `file`: fresh fields, then `generate_index`. -/
def openStore (file : List Command) : KvState :=
  generate_index
    { index := fun _ => none,
      cache := [],
      cached_commands := 0,
      cache_threshold := 1,
      log_threshold := 500,
      file := file }

/-- `<KvStore as Drop>::drop` (src/lib.rs lines 282-288): flush the cache. -/
def dropStore (s : KvState) : KvState :=
  write_cached_to_log s

/-- Apply a sequence of `set` operations in order. -/
def runSets (ops : List (String × String)) (s : KvState) : KvState :=
  ops.foldl (fun s p => kvSet s p.1 p.2) s

/-- `Operation` from src/bin/kvs-server.rs. -/
inductive Operation where
  | Set : String → String → Operation
  | Get : String → Operation
  | Remove : String → Operation
deriving DecidableEq

/-- `handle_operation` from src/bin/kvs-server.rs (lines 178-198): dispatch an
operation to the store; `set` and `rm` report `Ok(None)` on success and any
store error propagates. -/
def handle_operation (operation : Operation) (s : KvState) :
    KvResult (Option String) × KvState :=
  match operation with
  | Operation.Set key value => (.ok none, kvSet s key value)
  | Operation.Get key => kvGet s key
  | Operation.Remove key =>
    match kvRemove s key with
    | (.ok _, s') => (.ok none, s')
    | (.err e, s') => (.err e, s')

/-- The response string computed by `handle_connection`
(src/bin/kvs-server.rs lines 83-93) from the operation result. -/
def response_for (op_result : KvResult (Option String)) : String :=
  match op_result with
  | .ok (some value) => "OK " ++ value
  | .ok none => "OK"
  | .err _ => "FAIL"

/-- Outcome of a Rust function that may panic instead of returning. -/
inductive RustOutcome (α : Type) where
  | panic : String → RustOutcome α
  | ret : α → RustOutcome α
deriving DecidableEq

/-- `remove_newline_from_end` (src/bin/kvs-server.rs lines 166-176):
`string.split_at(string.len() - 1)`, dropping a final newline.  On the empty
string `len - 1` underflows, which panics in Rust (overflow check in debug
builds, out-of-bounds `split_at` after wrapping in release builds).  The
string is handled through its character list; lengths are counted in
characters, which agrees with Rust's byte counting on the ASCII inputs
considered here. -/
def remove_newline_from_end (string : String) : RustOutcome String :=
  if string.data.length = 0 then
    .panic "attempt to subtract with overflow"
  else
    let halves := (string.data.take (string.data.length - 1),
                   string.data.drop (string.data.length - 1))
    if halves.2 = [Char.ofNat 10] then .ret (String.mk halves.1) else .ret string

/-- Rust `request.split(' ')` on the character list of the request: split at
every single space, keeping empty fragments, exactly as `str::split` does
(so the result is never the empty list). -/
def split_on_spaces : List Char → List (List Char)
  | [] => [[]]
  | c :: rest =>
    if c = ' ' then [] :: split_on_spaces rest
    else
      match split_on_spaces rest with
      | [] => [[c]]
      | w :: ws => (c :: w) :: ws

/-- `parse_request` (src/bin/kvs-server.rs lines 131-164): strip the trailing
newline, split on spaces, and dispatch on the opcode `v[0]`.  The indexing
`v[1]` / `v[2]` panics when the line has too few fields; an unknown opcode
returns an error. -/
def parse_request (request : String) : RustOutcome (KvResult Operation) :=
  match remove_newline_from_end request with
  | .panic msg => .panic msg
  | .ret request =>
    match split_on_spaces request.data with
    | [] => .panic "index out of bounds"
    | v0 :: rest =>
      if String.mk v0 = "set" then
        match rest with
        | key :: value :: _ =>
          .ret (.ok (Operation.Set (String.mk key) (String.mk value)))
        | _ => .panic "index out of bounds"
      else if String.mk v0 = "get" then
        match rest with
        | key :: _ => .ret (.ok (Operation.Get (String.mk key)))
        | [] => .panic "index out of bounds"
      else if String.mk v0 = "rm" then
        match rest with
        | key :: _ => .ret (.ok (Operation.Remove (String.mk key)))
        | [] => .panic "index out of bounds"
      else
        .ret (.err "Request does not start with a valid operation code")

/-- How the server process ends its startup phase. -/
inductive ServerStartOutcome where
  | started : ServerStartOutcome
  | exitedNonzero : ServerStartOutcome
deriving DecidableEq

/-- Embedding of the startup path of `main` in src/bin/kvs-server.rs
(lines 25-67) as a function of whether the TCP bind succeeds, the `--engine`
argument, and the contents of a `./engine` sentinel file (`none` when
absent).  `main` reads `--addr` and `--engine`, binds the listener (a bind
failure propagates as `Err`, exiting nonzero) and opens a `KvStore`; the
engine argument is used only in log output, and no code path reads or writes
a `./engine` file, so the outcome depends on neither of the last two
arguments. -/
def server_startup (bind_ok : Bool) (_engine_arg : String)
    (_sentinel : Option String) : ServerStartOutcome :=
  if bind_ok then .started else .exitedNonzero

/-- `SharedQueueThreadPool::spawn` (src/thread_pool.rs lines 115-117):
`push_front` of a `RunJob` message on the shared `VecDeque`.  The deque is
modelled front-first as a list of job ids. -/
def spawn_enqueue (job_queue : List Nat) (job : Nat) : List Nat :=
  job :: job_queue

/-- One worker step of `job_thread_closure` (src/thread_pool.rs
lines 137-158): `pop_front` on the shared deque. -/
def worker_dequeue (job_queue : List Nat) : Option Nat × List Nat :=
  (job_queue.head?, job_queue.tail)

/-- Enqueue the given jobs in order through `spawn_enqueue`, starting from an
empty deque. -/
def enqueue_all (jobs : List Nat) : List Nat :=
  jobs.foldl spawn_enqueue []

/-- The order in which repeated `worker_dequeue` steps hand out the queued
jobs when no further jobs are enqueued in between. -/
def drain_order : List Nat → List Nat
  | [] => []
  | job :: rest => job :: drain_order rest

/-- Modelled from the spec: "`get(k)` equals the last-written value of `k`" —
the value of the last `set(k, v)` in a history of `set` operations, used only
as the reference point the store is compared against. -/
def spec_last_write (ops : List (String × String)) (k : String) : Option String :=
  ops.foldl (fun acc p => if p.1 = k then some p.2 else acc) none

/-- The homogeneous demonstration history: `n` times `set("a", "v")`. -/
def demo_ops (n : Nat) : List (String × String) :=
  List.replicate n ("a", "v")

/-- The store obtained by applying 502 `set("a", "v")` operations to a store
opened on an empty directory.  The 502nd flush makes `generate_index` see
offset 501 > 500 and run `compact_log`. -/
def demo_run : KvState :=
  runSets (demo_ops 502) (openStore [])

/-- State description maintained while the demonstration history stays below
the compaction threshold: after `n ≤ 501` sets of `("a", "v")` the file holds
`n` copies of the `Set` line, the cache is flushed, and the index maps `"a"`
to the last line. -/
def run_inv (n : Nat) (s : KvState) : Prop :=
  s.file = List.replicate n (Command.Set ⟨"a", "v"⟩) ∧
  s.cache = [] ∧
  s.cached_commands = 0 ∧
  s.cache_threshold = 1 ∧
  s.log_threshold = 500 ∧
  ∀ k, s.index k = if k = "a" ∧ 1 ≤ n then some (n - 1) else none

/-- A store holding a log of `n` identical `Set("a", "v")` lines with the
index freshly replayed from that log. -/
def pre_store (n : Nat) : KvState :=
  { index := (generate_index_loop 500 0 (fun _ => none) false
      (List.replicate n (Command.Set ⟨"a", "v"⟩))).1,
    cache := [],
    cached_commands := 0,
    cache_threshold := 1,
    log_threshold := 500,
    file := List.replicate n (Command.Set ⟨"a", "v"⟩) }

/-- The 502-line instance of `pre_store`: the state `generate_index` has
built at the moment it decides to compact (offset 501 exceeds the threshold
500). -/
def pre_compaction_store : KvState :=
  pre_store 502

theorem kvGet_snd (s : KvState) (k : String) : (kvGet s k).2 = s := by
  unfold kvGet
  split
  · split
    · rfl
    · rfl
    · rfl
  · rfl

theorem kvGet_pair (s : KvState) (k : String) : kvGet s k = ((kvGet s k).1, s) := by
  have h := kvGet_snd s k
  exact Prod.ext rfl h

/-- C10: `KvStore::get` is observation-only: it leaves the in-memory index,
the write cache, the cached-command counter, and the log file contents
unchanged (it returns the store state it was given), so any subsequent
operation behaves exactly as it would without the preceding `get`. -/
theorem get_preserves_state (s : KvState) (k : String) :
    (kvGet s k).2.index = s.index ∧
    (kvGet s k).2.cache = s.cache ∧
    (kvGet s k).2.cached_commands = s.cached_commands ∧
    (kvGet s k).2.file = s.file ∧
    (kvGet s k).2 = s := by
  have h := kvGet_snd s k
  exact ⟨by rw [h], by rw [h], by rw [h], by rw [h], h⟩

/-- C3: the log produced by `compact_log` is claimed to contain only the
surviving `Set` records and no `Remove` records.  The code instead keeps
every `Remove` record and the `Set` it tombstones:
`add_or_replace_command_in_vec` pushes a `Remove` unconditionally and only a
later `Set` of the same key can displace an earlier `Set`.  Compacting a log
holding `Set("a","1")` then `Remove("a")` returns both lines unchanged, so
the output still contains a `Remove` record (and the dead `Set`). -/
theorem compaction_retains_remove_records :
    (compact_log
      { index := fun _ => none,
        cache := [],
        cached_commands := 0,
        cache_threshold := 1,
        log_threshold := 500,
        file := [Command.Set ⟨"a", "1"⟩, Command.Remove "a"] }).file
      = [Command.Set ⟨"a", "1"⟩, Command.Remove "a"] ∧
    Command.Remove "a" ∈ (compact_log
      { index := fun _ => none,
        cache := [],
        cached_commands := 0,
        cache_threshold := 1,
        log_threshold := 500,
        file := [Command.Set ⟨"a", "1"⟩, Command.Remove "a"] }).file := by
  constructor
  · rfl
  · decide

/-- C7: the request parser is claimed to terminate without panicking on every
input line.  It does parse well-formed requests and reject unknown opcodes,
but it panics on the empty line (`string.len() - 1` underflows in
`remove_newline_from_end`) and on a request with a missing key (`v[1]` is out
of bounds). -/
theorem parse_request_panics_on_malformed :
    parse_request "" = RustOutcome.panic "attempt to subtract with overflow" ∧
    parse_request "set\n" = RustOutcome.panic "index out of bounds" ∧
    parse_request "set k\n" = RustOutcome.panic "index out of bounds" ∧
    parse_request "set k v\n" = RustOutcome.ret (.ok (Operation.Set "k" "v")) ∧
    parse_request "get k\n" = RustOutcome.ret (.ok (Operation.Get "k")) ∧
    parse_request "rm k\n" = RustOutcome.ret (.ok (Operation.Remove "k")) ∧
    parse_request "put k v\n"
      = RustOutcome.ret (.err "Request does not start with a valid operation code") := by
  refine ⟨rfl, by decide, by decide, by decide, by decide, by decide, by decide⟩

/-- C8 counterexample: starting with `--engine sled` while `./engine`
contains `kvs` does not make the server exit nonzero: `main` never reads any
sentinel file and proceeds to start whenever the TCP bind succeeds. -/
theorem server_startup_no_mismatch_exit :
    server_startup true "sled" (some "kvs") = ServerStartOutcome.started ∧
    server_startup true "sled" (some "kvs") ≠ ServerStartOutcome.exitedNonzero := by
  exact ⟨rfl, by decide⟩

/-- C8 amended: the server performs no engine-sentinel check at startup.  It
neither reads nor writes `./engine`; for every requested engine and every
sentinel contents it starts when the bind succeeds and exits nonzero only on
a bind failure. -/
theorem server_startup_ignores_sentinel (engine_arg : String) (sentinel : Option String) :
    server_startup true engine_arg sentinel = ServerStartOutcome.started ∧
    server_startup false engine_arg sentinel = ServerStartOutcome.exitedNonzero := by
  exact ⟨rfl, rfl⟩

theorem drain_order_id (l : List Nat) : drain_order l = l := by
  induction l with
  | nil => rfl
  | cons j rest ih => simp [drain_order, ih]

theorem foldl_spawn_enqueue (jobs : List Nat) :
    ∀ acc : List Nat, jobs.foldl spawn_enqueue acc = jobs.reverse ++ acc := by
  induction jobs with
  | nil => intro acc; simp
  | cons j rest ih =>
    intro acc
    simp [List.foldl_cons, spawn_enqueue, ih, List.reverse_cons]

/-- C9 counterexample: the pool's message deque is not FIFO.  Enqueueing job
1 then job 2 through `spawn` (`push_front`) and draining through the worker's
`pop_front` hands the jobs out as `[2, 1]`, not in the enqueue order
`[1, 2]`. -/
theorem queue_not_fifo :
    drain_order (enqueue_all [1, 2]) = [2, 1] ∧
    drain_order (enqueue_all [1, 2]) ≠ [1, 2] := by
  exact ⟨rfl, by decide⟩

/-- C9 amended: `spawn` pushes to the front of the shared deque and workers
also pop from the front, so with no interleaved dequeues the jobs are handed
out in LIFO order: the drain order is the reverse of the enqueue order. -/
theorem queue_drains_in_reverse (jobs : List Nat) :
    drain_order (enqueue_all jobs) = jobs.reverse := by
  rw [drain_order_id, enqueue_all, foldl_spawn_enqueue, List.append_nil]

/-- C6: `get` on a key absent from the index returns `Ok(None)`, never a
"Key not found" error, and `handle_connection` turns that result into the
bare success response `OK` with no data. -/
theorem get_missing_ok_none (s : KvState) (k : String) (h : s.index k = none) :
    (kvGet s k).1 = .ok none ∧
    (handle_operation (Operation.Get k) s).1 = .ok none ∧
    response_for (handle_operation (Operation.Get k) s).1 = "OK" := by
  have hg : (kvGet s k).1 = .ok none := by
    unfold kvGet
    rw [h]
  refine ⟨hg, ?_, ?_⟩
  · simpa [handle_operation] using hg
  · simp [handle_operation, response_for, hg]

theorem get_missing_witness :
    (openStore []).index "missing" = none ∧
    ((kvGet (openStore []) "missing").1 = .ok none ∧
      (handle_operation (Operation.Get "missing") (openStore [])).1 = .ok none ∧
      response_for (handle_operation (Operation.Get "missing") (openStore [])).1 = "OK") :=
  ⟨by decide, get_missing_ok_none (openStore []) "missing" (by decide)⟩

theorem kvRemove_of_get_some (s : KvState) (k v : String)
    (h : (kvGet s k).1 = .ok (some v)) : (kvRemove s k).1 = .ok () := by
  have hp : kvGet s k = (.ok (some v), s) := by rw [kvGet_pair, h]
  unfold kvRemove
  rw [hp]

theorem kvRemove_of_get_none (s : KvState) (k : String)
    (h : (kvGet s k).1 = .ok none) : kvRemove s k = (.err "Key not found", s) := by
  have hp : kvGet s k = (.ok none, s) := by rw [kvGet_pair, h]
  unfold kvRemove
  rw [hp]

/-- C5: `remove(k)` returns `Ok` when `get` currently finds a value for `k`
and fails with the "Key not found" error, leaving the store untouched, when
`get` finds none; in particular after `set("a","x")` then `remove("a")` a
second `remove("a")` fails with "Key not found" and returns the store
unchanged. -/
theorem remove_present_ok_absent_key_not_found (s : KvState) (k v : String) :
    ((kvGet s k).1 = .ok (some v) → (kvRemove s k).1 = .ok ()) ∧
    ((kvGet s k).1 = .ok none → kvRemove s k = (.err "Key not found", s)) ∧
    (kvRemove (kvSet (openStore []) "a" "x") "a").1 = .ok () ∧
    kvRemove ((kvRemove (kvSet (openStore []) "a" "x") "a").2) "a"
      = (.err "Key not found", (kvRemove (kvSet (openStore []) "a" "x") "a").2) := by
  refine ⟨fun h => kvRemove_of_get_some s k v h,
          fun h => kvRemove_of_get_none s k h,
          kvRemove_of_get_some _ _ "x" (by decide),
          kvRemove_of_get_none _ _ (by decide)⟩

theorem remove_behavior_witness :
    (kvRemove (kvSet (openStore []) "b" "y") "b").1 = .ok () ∧
    kvRemove (openStore []) "b" = (.err "Key not found", openStore []) :=
  ⟨(remove_present_ok_absent_key_not_found (kvSet (openStore []) "b" "y") "b" "y").1
      (by decide),
   (remove_present_ok_absent_key_not_found (openStore []) "b" "y").2.1 (by decide)⟩

theorem add_or_replace_set_self (p : Pair) :
    add_or_replace_command_in_vec [Command.Set p] (Command.Set p) = [Command.Set p] := by
  simp [add_or_replace_command_in_vec, vec_position, set_has_key]

theorem compact_foldl_replicate_aux (p : Pair) :
    ∀ n : Nat, List.foldl add_or_replace_command_in_vec [Command.Set p]
        (List.replicate n (Command.Set p)) = [Command.Set p] := by
  intro n
  induction n with
  | zero => rfl
  | succ m ih =>
    rw [List.replicate_succ, List.foldl_cons, add_or_replace_set_self]
    exact ih

theorem compact_foldl_replicate (p : Pair) (n : Nat) :
    (List.replicate (n + 1) (Command.Set p)).foldl add_or_replace_command_in_vec []
      = [Command.Set p] := by
  rw [List.replicate_succ, List.foldl_cons]
  have h0 : add_or_replace_command_in_vec [] (Command.Set p) = [Command.Set p] := by
    simp [add_or_replace_command_in_vec, vec_position]
  rw [h0]
  exact compact_foldl_replicate_aux p n

theorem generate_index_loop_replicate_set (thr : Nat) (p : Pair) :
    ∀ (n offset : Nat) (base : String → Option Nat) (flag : Bool),
      ((generate_index_loop thr offset base flag
          (List.replicate (n + 1) (Command.Set p))).2
        = (flag || decide (offset + n > thr))) ∧
      ∀ k, (generate_index_loop thr offset base flag
          (List.replicate (n + 1) (Command.Set p))).1 k
        = if k = p.k then some (offset + n) else base k := by
  intro n
  induction n with
  | zero =>
    intro offset base flag
    constructor
    · simp [generate_index_loop]
    · intro k
      simp [generate_index_loop]
  | succ m ih =>
    intro offset base flag
    rw [List.replicate_succ]
    constructor
    · show (generate_index_loop thr (offset + 1)
          (fun k' => if k' = p.k then some offset else base k')
          (flag || decide (offset > thr))
          (List.replicate (m + 1) (Command.Set p))).2 = _
      rw [(ih (offset + 1) _ _).1]
      by_cases h : offset > thr
      · have h2 : offset + 1 + m > thr := by omega
        have h3 : offset + (m + 1) > thr := by omega
        simp [h, h2, h3]
      · have h4 : offset + 1 + m = offset + (m + 1) := by omega
        simp [h, h4]
    · intro k
      show (generate_index_loop thr (offset + 1)
          (fun k' => if k' = p.k then some offset else base k')
          (flag || decide (offset > thr))
          (List.replicate (m + 1) (Command.Set p))).1 k = _
      rw [(ih (offset + 1) _ _).2 k]
      by_cases hk : k = p.k
      · have h4 : offset + 1 + m = offset + (m + 1) := by omega
        simp [hk, h4]
      · simp [hk]

theorem replicate_get_lt (a : Command) :
    ∀ (n i : Nat), i < n → (List.replicate n a).get? i = some a := by
  intro n
  induction n with
  | zero => intro i h; omega
  | succ m ih =>
    intro i h
    cases i with
    | zero => rfl
    | succ j =>
      rw [List.replicate_succ]
      exact ih j (by omega)

theorem kvSet_flushed (s : KvState) (k v : String)
    (hcache : s.cache = []) (hcc : s.cached_commands = 0) (hct : s.cache_threshold = 1) :
    kvSet s k v = generate_index { s with
      file := s.file ++ [Command.Set ⟨k, v⟩],
      cached_commands := 0,
      cache := [] } := by
  unfold kvSet raise_cached_commands
  simp only [hcache, hcc, hct, List.nil_append]
  norm_num
  unfold write_cached_to_log
  norm_num

theorem generate_index_replicate_below (s : KvState) (n : Nat)
    (hfile : s.file = List.replicate (n + 1) (Command.Set ⟨"a", "v"⟩))
    (hlt : s.log_threshold = 500) (hn : n ≤ 500) :
    generate_index s
      = { s with index := fun k => (if k = "a" then some n else s.index k) } := by
  unfold generate_index
  rw [hfile, hlt]
  dsimp only
  have h500 : (500 : Int).toNat = 500 := rfl
  have hrep := generate_index_loop_replicate_set ((500 : Int).toNat) ⟨"a", "v"⟩ n 0
    s.index false
  have hflag : (generate_index_loop ((500 : Int).toNat) 0 s.index false
      (List.replicate (n + 1) (Command.Set ⟨"a", "v"⟩))).2 = false := by
    rw [hrep.1]
    simp only [Bool.false_or, decide_eq_false_iff_not]
    rw [h500]
    omega
  rw [hflag]
  simp only [Bool.false_eq_true, if_false]
  congr 1
  funext k
  rw [hrep.2 k]
  simp

theorem generate_index_replicate_above (s : KvState) (n : Nat)
    (hfile : s.file = List.replicate (n + 1) (Command.Set ⟨"a", "v"⟩))
    (hlt : s.log_threshold = 500) (hn : n > 500) :
    generate_index s
      = { s with
          index := fun k => (if k = "a" then some n else s.index k),
          file := [Command.Set ⟨"a", "v"⟩] } := by
  unfold generate_index
  rw [hfile, hlt]
  dsimp only
  have h500 : (500 : Int).toNat = 500 := rfl
  have hrep := generate_index_loop_replicate_set ((500 : Int).toNat) ⟨"a", "v"⟩ n 0
    s.index false
  have hflag : (generate_index_loop ((500 : Int).toNat) 0 s.index false
      (List.replicate (n + 1) (Command.Set ⟨"a", "v"⟩))).2 = true := by
    rw [hrep.1]
    simp only [Bool.false_or, decide_eq_true_eq]
    rw [h500]
    omega
  rw [hflag]
  simp only [if_true]
  unfold compact_log
  dsimp only
  rw [compact_foldl_replicate]
  congr 1
  funext k
  rw [hrep.2 k]
  simp

theorem run_inv_zero : run_inv 0 (openStore []) := by
  refine ⟨rfl, rfl, rfl, rfl, rfl, ?_⟩
  intro k
  simp [openStore, generate_index, generate_index_loop]

theorem run_inv_step {n : Nat} {s : KvState} (h : run_inv n s) (hn : n ≤ 500) :
    run_inv (n + 1) (kvSet s "a" "v") := by
  obtain ⟨hfile, hcache, hcc, hct, hlt, hidx⟩ := h
  rw [kvSet_flushed s "a" "v" hcache hcc hct]
  rw [generate_index_replicate_below
    { s with file := s.file ++ [Command.Set ⟨"a", "v"⟩], cached_commands := 0, cache := [] }
    n (by simp [hfile, ← List.replicate_succ']) (by simp [hlt]) hn]
  refine ⟨by simp [hfile, ← List.replicate_succ'], rfl, rfl, by simp [hct], by simp [hlt], ?_⟩
  intro k
  by_cases hk : k = "a"
  · simp [hk]
  · simp [hk, hidx k]

theorem run_inv_many : ∀ (m n : Nat) (s : KvState), run_inv n s → n + m ≤ 501 →
    run_inv (n + m) (runSets (demo_ops m) s) := by
  intro m
  induction m with
  | zero =>
    intro n s h _
    exact h
  | succ j ih =>
    intro n s h hle
    have hstep := run_inv_step h (by omega)
    have := ih (n + 1) (kvSet s "a" "v") hstep (by omega)
    have harr : n + (j + 1) = n + 1 + j := by omega
    rw [harr]
    simpa [demo_ops, List.replicate_succ, runSets] using this

theorem demo_run_eq :
    demo_run = kvSet (runSets (demo_ops 501) (openStore [])) "a" "v" := by
  unfold demo_run
  have : demo_ops 502 = demo_ops 501 ++ [("a", "v")] := by
    unfold demo_ops
    rw [← List.replicate_succ']
  rw [this]
  unfold runSets
  rw [List.foldl_append, List.foldl_cons, List.foldl_nil]

theorem flush_update_file (s : KvState) (c : Command) :
    ({ s with file := s.file ++ [c], cached_commands := 0, cache := [] } : KvState).file
      = s.file ++ [c] := rfl

theorem flush_update_log_threshold (s : KvState) (c : Command) :
    ({ s with
        file := s.file ++ [c],
        cached_commands := 0,
        cache := [] } : KvState).log_threshold = s.log_threshold := rfl

theorem demo_run_characterization :
    demo_run.file = [Command.Set ⟨"a", "v"⟩] ∧
    demo_run.index "a" = some 501 ∧
    demo_run.cached_commands = 0 := by
  have hinv : run_inv 501 (runSets (demo_ops 501) (openStore [])) := by
    have := run_inv_many 501 0 (openStore []) run_inv_zero (by omega)
    simpa using this
  obtain ⟨hfile, hcache, hcc, hct, hlt, hidx⟩ := hinv
  rw [demo_run_eq]
  rw [kvSet_flushed _ "a" "v" hcache hcc hct]
  rw [generate_index_replicate_above _ 501
    (by rw [flush_update_file, hfile, ← List.replicate_succ'])
    (by rw [flush_update_log_threshold]; exact hlt) (by omega)]
  refine ⟨rfl, by simp, rfl⟩

theorem spec_last_write_aux : ∀ n : Nat,
    List.foldl (fun acc p => if p.1 = "a" then some p.2 else acc) (some "v")
      (List.replicate n ("a", "v")) = some "v" := by
  intro n
  induction n with
  | zero => rfl
  | succ m ih =>
    rw [List.replicate_succ, List.foldl_cons]
    simpa using ih

theorem spec_last_write_demo (n : Nat) :
    spec_last_write (demo_ops (n + 1)) "a" = some "v" := by
  unfold spec_last_write demo_ops
  rw [List.replicate_succ, List.foldl_cons]
  simpa using spec_last_write_aux n

theorem kvGet_stale_err (s : KvState) (k : String) (off : Nat)
    (h1 : s.index k = some off) (h2 : s.file.get? off = none) :
    (kvGet s k).1 = .err "File pointer in index points to non-existant command" := by
  unfold kvGet
  rw [h1]
  dsimp only
  rw [h2]

/-- C1: applying the 502-step history `set("a","v"), …, set("a","v")` to a
freshly opened store makes the 502nd flush trigger compaction, which rewrites
the log to a single line while `generate_index` leaves the in-memory index
mapping `"a"` to the stale offset 501; the next `get("a")` therefore fails
with the corruption error instead of returning `Ok(Some("v"))`, the
last-written value demanded by the claim. -/
theorem get_after_compaction_run_fails :
    (kvGet demo_run "a").1 = .err "File pointer in index points to non-existant command" ∧
    spec_last_write (demo_ops 502) "a" = some "v" := by
  obtain ⟨hfile, hidx, _⟩ := demo_run_characterization
  exact ⟨kvGet_stale_err demo_run "a" 501 hidx (by rw [hfile]; rfl),
    spec_last_write_demo 501⟩

theorem compact_log_index (s : KvState) : (compact_log s).index = s.index := rfl

theorem get_singleton_ge_one (c : Command) (m : Nat) (hm : 1 ≤ m) :
    [c].get? m = none := by
  match m, hm with
  | j + 1, _ => rfl

theorem pre_store_length (n : Nat) : (pre_store n).file.length = n := by
  dsimp only [pre_store]
  rw [List.length_replicate]

theorem pre_store_idx (m : Nat) : (pre_store (m + 1)).index "a" = some m := by
  show (generate_index_loop 500 0 (fun _ => none) false
      (List.replicate (m + 1) (Command.Set ⟨"a", "v"⟩))).1 "a" = some m
  rw [(generate_index_loop_replicate_set 500 ⟨"a", "v"⟩ m 0 (fun _ => none) false).2 "a"]
  norm_num

theorem pre_store_get_before (m : Nat) :
    (kvGet (pre_store (m + 1)) "a").1 = .ok (some "v") := by
  unfold kvGet
  rw [pre_store_idx]
  rw [show (pre_store (m + 1)).file
    = List.replicate (m + 1) (Command.Set ⟨"a", "v"⟩) from rfl]
  dsimp only
  rw [replicate_get_lt _ (m + 1) m (by omega)]

theorem pre_store_get_after (m : Nat) (hm : 1 ≤ m) :
    (kvGet (compact_log (pre_store (m + 1))) "a").1
      = .err "File pointer in index points to non-existant command" := by
  unfold kvGet
  have hidx2 : (compact_log (pre_store (m + 1))).index "a" = some m := by
    rw [compact_log_index]
    exact pre_store_idx m
  have hfc : (compact_log (pre_store (m + 1))).file = [Command.Set ⟨"a", "v"⟩] := by
    show (List.replicate (m + 1) (Command.Set ⟨"a", "v"⟩)).foldl
      add_or_replace_command_in_vec [] = [Command.Set ⟨"a", "v"⟩]
    exact compact_foldl_replicate ⟨"a", "v"⟩ m
  rw [hidx2, hfc]
  dsimp only
  rw [get_singleton_ge_one _ m hm]

/-- C2: for the (threshold-crossed) store holding 502 `Set("a","v")` lines
with a freshly replayed index, `get("a")` returns `Ok(Some("v"))` before
compaction; running the code's compaction (`compact_log`, which is exactly
what `generate_index` invokes, and which never rebuilds the index) shrinks
the file to one line, after which `get("a")` fails with the corruption error
instead of returning its pre-compaction value. -/
theorem compaction_changes_get_results :
    500 < pre_compaction_store.file.length ∧
    (kvGet pre_compaction_store "a").1 = .ok (some "v") ∧
    (compact_log pre_compaction_store).index = pre_compaction_store.index ∧
    (kvGet (compact_log pre_compaction_store) "a").1
      = .err "File pointer in index points to non-existant command" := by
  rw [show pre_compaction_store = pre_store (501 + 1) from rfl]
  refine ⟨?_, pre_store_get_before 501, compact_log_index _, pre_store_get_after 501 (by omega)⟩
  rw [pre_store_length]
  omega

/-- C4: after the 502-set history of `demo_run`, dropping the store flushes
nothing (the cache is already empty) and leaves the stale post-compaction
index in place, so the last observable `get("a")` before closing fails with
the corruption error; reopening the same directory replays the compacted
one-line log and `get("a")` then returns `Ok(Some("v"))` — the observable
`get` results change across the close/reopen round-trip. -/
theorem reopen_changes_get_results :
    (kvGet (dropStore demo_run) "a").1
      = .err "File pointer in index points to non-existant command" ∧
    (kvGet (openStore (dropStore demo_run).file) "a").1 = .ok (some "v") := by
  obtain ⟨hfile, hidx, hcc⟩ := demo_run_characterization
  have hdrop : dropStore demo_run = demo_run := by
    unfold dropStore write_cached_to_log
    rw [hcc]
    simp
  rw [hdrop]
  exact ⟨kvGet_stale_err demo_run "a" 501 hidx (by rw [hfile]; rfl),
    by rw [hfile]; decide⟩
